import Mathlib

/-!
Verification of the image normalization and compositing pipeline of
`src/app.py` (background-replacement tool): upload validation, proportional
downscaling, geometric reconciliation, alpha compositing, and the error
wiring of the processing script.

External collaborators (PIL's decoder/encoder/resampler, the `rembg`
segmentation model) are not part of the repository's source; where a claim
depends on their behaviour, the corresponding definition is modelled from
the specification and marked as such in its doc comment.
-/

namespace BgrImg

/-! ### Configuration constants (src/app.py lines 8-10) -/

def MAX_IMAGE_SIZE_MB : Nat := 5

def MAX_IMAGE_DIMENSION : Nat := 1024

def ALLOWED_IMAGE_FORMATS : List String := ["png", "jpg", "jpeg", "bmp", "tiff"]

/-! ### Uploaded files and the validator (src/app.py lines 36-51)

An uploaded file carries a declared filename, a declared byte size and the
raw content bytes.  `validate_file` reads only the name and size. -/

structure UploadedFile where
  name : String
  size : Nat
  content : List Nat
deriving DecidableEq

/-- `name.split(".")[-1]`: the characters after the last `'.'`, the whole
name when no `'.'` occurs (Python's `split` then last element), then
`.lower()` applied characterwise. -/
def fileExt (name : String) : String :=
  String.mk (((name.data.reverse.takeWhile (fun c => c ≠ '.')).reverse).map Char.toLower)

/-- `validate_file` (src/app.py lines 36-51), restricted to present files
(the `if file:` guard has fired).  `file.size / (1024 * 1024)` is Python
float division; since the divisor is `2 ^ 20` the division is exact in
binary floating point for all realistic sizes, so exact rational division
models it faithfully. -/
def validate_file (file : UploadedFile) : Bool :=
  let file_size_mb : ℚ := (file.size : ℚ) / (1024 * 1024)
  let file_ext := fileExt file.name
  if file_ext ∉ ALLOWED_IMAGE_FORMATS then false
  else if file_size_mb > (MAX_IMAGE_SIZE_MB : ℚ) then false
  else true

/-! ### Images

A decoded raster: width, height, color mode and a pixel buffer.  Pixels are
kept as RGBA quadruples with rational channel values so that the exact
per-pixel blending arithmetic of the compositor can be stated; decoded
images carry integer channel values in `[0, 255]` (`pixelInRange`). -/

inductive Mode
  | RGB
  | RGBA
  | L
deriving DecidableEq

structure Pixel where
  r : ℚ
  g : ℚ
  b : ℚ
  a : ℚ
deriving DecidableEq

structure Image where
  width : Nat
  height : Nat
  mode : Mode
  px : Nat → Nat → Pixel

/-- All four channels of a pixel lie in the 8-bit range `[0, 255]`. -/
def pixelInRange (p : Pixel) : Prop :=
  0 ≤ p.r ∧ p.r ≤ 255 ∧ 0 ≤ p.g ∧ p.g ≤ 255 ∧
    0 ≤ p.b ∧ p.b ≤ 255 ∧ 0 ≤ p.a ∧ p.a ≤ 255

/-! ### Downscaling (src/app.py lines 53-57) -/

/-- Round `num / den` to the nearest integer (halves round up). -/
def roundNat (num den : Nat) : Nat :=
  (2 * num + den) / (2 * den)

/-- Modelled from the spec: the dimension arithmetic of PIL's
`Image.thumbnail`, which is internal to the imaging library — the larger
dimension becomes `m` and the other scales proportionally, rounded to the
nearest integer pixel. -/
def thumbnailDims (w h m : Nat) : Nat × Nat :=
  if h ≤ w then (m, roundNat (h * m) w) else (roundNat (w * m) h, m)

/-- Modelled from the spec: PIL's `Image.thumbnail` with the LANCZOS filter
(src/app.py line 56).  Dimensions follow `thumbnailDims`; the pixel content
stands in for the library-internal resampling filter, on which no claim
depends. -/
def thumbnailImage (image : Image) (m : Nat) : Image :=
  let d := thumbnailDims image.width image.height m
  { width := d.1, height := d.2, mode := image.mode,
    px := fun x y => image.px (x * image.width / d.1) (y * image.height / d.2) }

/-- `compress_image` (src/app.py lines 53-57): resize while maintaining
aspect ratio when `max(image.size)` exceeds `max_dimension`, else return
the image untouched. -/
def compress_image (image : Image) (max_dimension : Nat) : Image :=
  if max image.width image.height > max_dimension then
    thumbnailImage image max_dimension
  else image

/-! ### Compositing (src/app.py line 107) -/

/-- Clamp a channel value to the valid 8-bit output range. -/
def clamp255 (x : ℚ) : ℚ := max 0 (min 255 x)

/-- Modelled from the spec: the per-pixel Porter-Duff source-over blend
performed by `Image.alpha_composite` (src/app.py line 107), which is
internal to the imaging library.  Each alpha is normalized to `[0, 1]`
during the computation and every output channel is clamped to the valid
integer range. -/
def overPixel (bgp fgp : Pixel) : Pixel :=
  let af := fgp.a / 255
  let ab := bgp.a / 255
  { r := clamp255 (fgp.r * af + bgp.r * ab * (1 - af)),
    g := clamp255 (fgp.g * af + bgp.g * ab * (1 - af)),
    b := clamp255 (fgp.b * af + bgp.b * ab * (1 - af)),
    a := clamp255 (255 * (af + ab * (1 - af))) }

/-- Modelled from the spec: `Image.alpha_composite(background_img,
processed_foreground)` (src/app.py line 107) — per-pixel source-over
blending of the foreground over the background; the output shares the
inputs' dimensions and is RGBA. -/
def alpha_composite (background foreground : Image) : Image :=
  { width := background.width, height := background.height, mode := Mode.RGBA,
    px := fun x y => overPixel (background.px x y) (foreground.px x y) }

/-! ### Reconciliation (src/app.py lines 99-104) -/

/-- Modelled from the spec: PIL's `Image.resize` (src/app.py line 100) —
the output has exactly the requested dimensions and keeps the input's
mode; the pixel sampling stands in for the library-internal resampling
filter, on which no claim depends. -/
def resize (image : Image) (w h : Nat) : Image :=
  { width := w, height := h, mode := image.mode,
    px := fun x y => image.px (x * image.width / w) (y * image.height / h) }

/-- Modelled from the spec: PIL's `convert("RGBA")` (src/app.py lines
103-104) — the mode becomes RGBA and images without an alpha channel gain
a fully-opaque alpha of 255. -/
def convertRGBA (image : Image) : Image :=
  { width := image.width, height := image.height, mode := Mode.RGBA,
    px := fun x y =>
      match image.mode with
      | Mode.RGBA => image.px x y
      | Mode.RGB => { image.px x y with a := 255 }
      | Mode.L => { image.px x y with a := 255 } }

/-- The reconcile block (src/app.py lines 99-104): resize the background
to the processed foreground's size when the sizes differ, then convert
both images to RGBA. -/
def reconcile (processed_foreground background_img : Image) : Image × Image :=
  let bg :=
    if (processed_foreground.width, processed_foreground.height) ≠
        (background_img.width, background_img.height) then
      resize background_img processed_foreground.width processed_foreground.height
    else background_img
  (convertRGBA processed_foreground, convertRGBA bg)

/-! ### Errors, diagnostics and the processing script -/

/-- The exception classes distinguished by the script's two handlers
(src/app.py lines 125-128): `UnidentifiedImageError` and everything
else. -/
inductive PyError
  | unidentifiedImage
  | other
deriving DecidableEq

/-- The user-facing error diagnostics the script can emit
(src/app.py lines 126 and 128). -/
inductive Msg
  | invalidImage
  | unexpected
deriving DecidableEq

/-- The diagnostic each handler emits for a raised exception
(src/app.py lines 125-128); always exactly one message. -/
def handlerMsgs : PyError → List Msg
  | PyError.unidentifiedImage => [Msg.invalidImage]
  | PyError.other => [Msg.unexpected]

/-- Modelled from the spec: `Image.alpha_composite` validates its
precondition and fails fast when the inputs differ in dimensions or are
not both RGBA; otherwise it blends. -/
def alpha_composite_checked (background foreground : Image) :
    Except PyError Image :=
  if background.width = foreground.width ∧ background.height = foreground.height ∧
      background.mode = Mode.RGBA ∧ foreground.mode = Mode.RGBA then
    Except.ok (alpha_composite background foreground)
  else
    Except.error PyError.other

/-- The observable result of one run of the processing script: the
user-facing error diagnostics emitted, the composite offered for display
and download (if any), and how many times the background-removal
collaborator was invoked. -/
structure Outcome where
  errors : List Msg
  output : Option Image
  removeCalls : Nat

/-- The processing script after both validations succeeded (src/app.py
lines 64-128), with the external collaborators passed in as functions:
`decode` is `Image.open` on a byte buffer (used for both uploads and for
the collaborator's output), `encodePng` the lossless encoder staging the
foreground, `removeFn` the `rembg.remove` call.  A raised exception is an
`Except.error` routed to the matching handler; every failure is terminal. -/
def runPipeline (decode : List Nat → Except PyError Image)
    (encodePng : Image → List Nat)
    (removeFn : List Nat → Except PyError (List Nat))
    (fgBytes bgBytes : List Nat) : Outcome :=
  match decode fgBytes with
  | Except.error e => { errors := handlerMsgs e, output := none, removeCalls := 0 }
  | Except.ok foreground_img =>
    match decode bgBytes with
    | Except.error e => { errors := handlerMsgs e, output := none, removeCalls := 0 }
    | Except.ok background_img =>
      let foreground_img := compress_image foreground_img MAX_IMAGE_DIMENSION
      let background_img := compress_image background_img MAX_IMAGE_DIMENSION
      match removeFn (encodePng foreground_img) with
      | Except.error e => { errors := handlerMsgs e, output := none, removeCalls := 1 }
      | Except.ok processedBytes =>
        match decode processedBytes with
        | Except.error e => { errors := handlerMsgs e, output := none, removeCalls := 1 }
        | Except.ok processed_foreground =>
          let pair := reconcile processed_foreground background_img
          match alpha_composite_checked pair.2 pair.1 with
          | Except.error e => { errors := handlerMsgs e, output := none, removeCalls := 1 }
          | Except.ok output_img =>
            { errors := [], output := some output_img, removeCalls := 1 }

/-! ### Concrete data for witnesses and counterexamples -/

/-- A fully-opaque black RGBA pixel. -/
def constPixel : Pixel := { r := 0, g := 0, b := 0, a := 255 }

/-- A 1×1 RGBA image of `constPixel`. -/
def constImage : Image :=
  { width := 1, height := 1, mode := Mode.RGBA, px := fun _ _ => constPixel }

/-- A demo decoder: fails (as `Image.open` does) on the empty buffer and on
the buffer `[9]`, succeeds elsewhere. -/
def demoDecode : List Nat → Except PyError Image := fun bytes =>
  if bytes = [] ∨ bytes = [9] then Except.error PyError.unidentifiedImage
  else Except.ok constImage

/-- A demo encoder. -/
def demoEncode : Image → List Nat := fun _ => [3]

/-- A demo collaborator that returns unparseable bytes. -/
def demoRemoveBad : List Nat → Except PyError (List Nat) := fun _ => Except.ok [9]

/-- A demo collaborator that raises. -/
def demoRemoveErr : List Nat → Except PyError (List Nat) := fun _ =>
  Except.error PyError.other

end BgrImg

namespace BgrImg

/-! ### Theorems about the validator -/

/-- C4: `validate_file` returns `false` exactly when the case-insensitive
extension (substring after the last `'.'`) is outside the allow-list or the
size in MB strictly exceeds the 5 MB ceiling; in particular `image.gif` is
rejected, a 6 MB file is rejected, and a 2 MB `photo.png` is accepted. -/
theorem validate_file_correct :
    (∀ f : UploadedFile,
      validate_file f = false ↔
        (fileExt f.name ∉ ALLOWED_IMAGE_FORMATS ∨
          (MAX_IMAGE_SIZE_MB : ℚ) < (f.size : ℚ) / (1024 * 1024))) ∧
    validate_file ⟨"image.gif", 2 * 1024 * 1024, []⟩ = false ∧
    validate_file ⟨"photo.png", 6 * 1024 * 1024, []⟩ = false ∧
    validate_file ⟨"photo.png", 2 * 1024 * 1024, []⟩ = true := by
  refine ⟨fun f => ?_, by decide, ?_, ?_⟩
  · unfold validate_file
    by_cases hext : fileExt f.name ∈ ALLOWED_IMAGE_FORMATS
    · simp only [hext, not_true_eq_false, if_neg, ite_not]
      by_cases hsz : (MAX_IMAGE_SIZE_MB : ℚ) < (f.size : ℚ) / (1024 * 1024)
      · simp [hsz, gt_iff_lt]
      · simp [hsz, gt_iff_lt, hext]
    · simp [hext]
  · have hext : fileExt "photo.png" ∈ ALLOWED_IMAGE_FORMATS := by decide
    unfold validate_file MAX_IMAGE_SIZE_MB
    simp [hext]
    norm_num
  · have hext : fileExt "photo.png" ∈ ALLOWED_IMAGE_FORMATS := by decide
    unfold validate_file MAX_IMAGE_SIZE_MB
    simp [hext]
    norm_num

/-- C6: the validator's verdict depends only on the declared filename and
declared byte size, never on the content bytes. -/
theorem validate_file_content_independent (f g : UploadedFile)
    (hname : f.name = g.name) (hsize : f.size = g.size) :
    validate_file f = validate_file g := by
  unfold validate_file
  rw [hname, hsize]

/-- Witness for C6: two files with equal name and size but different
contents get the same verdict. -/
theorem validate_file_content_independent_witness :
    UploadedFile.name ⟨"photo.png", 100, [1, 2, 3]⟩ =
        UploadedFile.name ⟨"photo.png", 100, [9]⟩ ∧
      UploadedFile.size ⟨"photo.png", 100, [1, 2, 3]⟩ =
        UploadedFile.size ⟨"photo.png", 100, [9]⟩ ∧
      validate_file ⟨"photo.png", 100, [1, 2, 3]⟩ =
        validate_file ⟨"photo.png", 100, [9]⟩ :=
  ⟨rfl, rfl,
    validate_file_content_independent ⟨"photo.png", 100, [1, 2, 3]⟩
      ⟨"photo.png", 100, [9]⟩ rfl rfl⟩

/-- C10 counterexample: `"jpg"` is a dot-free filename different from
`"png"`, yet a small file with that name is accepted, refuting "any other
dot-free name is rejected". -/
theorem dotfree_nonpng_accepted :
    '.' ∉ ("jpg" : String).data ∧ ("jpg" : String) ≠ "png" ∧
      validate_file ⟨"jpg", 1024, []⟩ = true := by
  refine ⟨by decide, by decide, ?_⟩
  have hext : fileExt "jpg" ∈ ALLOWED_IMAGE_FORMATS := by decide
  unfold validate_file MAX_IMAGE_SIZE_MB
  simp [hext]
  norm_num

/-- C10 (amended): for a dot-free filename the validator takes the entire
lowercased name as the extension, so the file is accepted iff that
lowercased name is in the allowed-format set and the size is within the
ceiling. -/
theorem validate_file_dotfree (f : UploadedFile) (hdot : '.' ∉ f.name.data) :
    validate_file f = true ↔
      (String.mk (f.name.data.map Char.toLower) ∈ ALLOWED_IMAGE_FORMATS ∧
        (f.size : ℚ) / (1024 * 1024) ≤ (MAX_IMAGE_SIZE_MB : ℚ)) := by
  have hext : fileExt f.name = String.mk (f.name.data.map Char.toLower) := by
    unfold fileExt
    have : f.name.data.reverse.takeWhile (fun c => c ≠ '.') = f.name.data.reverse := by
      rw [List.takeWhile_eq_self_iff]
      intro c hc
      simp only [decide_eq_true_eq]
      intro h
      exact hdot (h ▸ List.mem_reverse.1 hc)
    rw [this, List.reverse_reverse]
  unfold validate_file
  rw [hext]
  by_cases hmem : String.mk (f.name.data.map Char.toLower) ∈ ALLOWED_IMAGE_FORMATS
  · simp only [hmem, not_true_eq_false, if_false]
    by_cases hsz : (f.size : ℚ) / (1024 * 1024) > (MAX_IMAGE_SIZE_MB : ℚ)
    · simp [hsz, hmem, not_le.2 hsz]
    · simp [hsz, hmem, not_lt.1 hsz]
  · simp [hmem]

/-- Witness for C10's amended theorem at the dot-free name `"png"`. -/
theorem validate_file_dotfree_witness :
    '.' ∉ (("png" : String)).data ∧
      (validate_file ⟨"png", 1024, []⟩ = true ↔
        (String.mk ((("png" : String)).data.map Char.toLower) ∈ ALLOWED_IMAGE_FORMATS ∧
          ((1024 : Nat) : ℚ) / (1024 * 1024) ≤ (MAX_IMAGE_SIZE_MB : ℚ))) :=
  ⟨by decide, validate_file_dotfree ⟨"png", 1024, []⟩ (by decide)⟩

/-! ### Theorems about the downscaler -/

/-- `roundNat n d` is within half a unit of the exact ratio `n / d`:
`2 d ⬝ roundNat n d` is within `d` of `2 n`. -/
theorem roundNat_bounds (n d : Nat) (hd : 0 < d) :
    2 * d * roundNat n d ≤ 2 * n + d ∧ 2 * n ≤ 2 * d * roundNat n d + d := by
  have h2d : 0 < 2 * d := by omega
  have h1 : 2 * d * ((2 * n + d) / (2 * d)) + (2 * n + d) % (2 * d) = 2 * n + d :=
    Nat.div_add_mod _ _
  have h2 : (2 * n + d) % (2 * d) < 2 * d := Nat.mod_lt _ h2d
  unfold roundNat
  generalize hP : 2 * d * ((2 * n + d) / (2 * d)) = P at h1 ⊢
  generalize hR : (2 * n + d) % (2 * d) = R at h1 h2
  omega

/-- Rounding a ratio bounded by `b` yields at most `b`. -/
theorem roundNat_le_of_le (n d b : Nat) (hd : 0 < d) (h : n ≤ d * b) :
    roundNat n d ≤ b := by
  have hb := (roundNat_bounds n d hd).1
  have hlt : 2 * d * roundNat n d < 2 * d * (b + 1) := by nlinarith
  exact Nat.lt_succ_iff.mp (lt_of_mul_lt_mul_left hlt (Nat.zero_le _))

/-- C2: `compress_image` leaves the dimensions unchanged when
`max(width, height) ≤ maxDimension`; otherwise the larger output dimension
equals `maxDimension` exactly, the other dimension is the proportionally
scaled value rounded to the nearest integer (so the aspect ratio is kept
within half a source pixel: `2·w·h' ` is within `w` of `2·h·m`), and
neither dimension ever increases. -/
theorem compress_image_spec (image : Image) (m : Nat) :
    (max image.width image.height ≤ m → compress_image image m = image) ∧
    (m < max image.width image.height →
      (max (compress_image image m).width (compress_image image m).height = m ∧
        (compress_image image m).width ≤ image.width ∧
        (compress_image image m).height ≤ image.height ∧
        (image.height ≤ image.width →
          (compress_image image m).width = m ∧
          (compress_image image m).height = roundNat (image.height * m) image.width ∧
          2 * image.width * (compress_image image m).height ≤
              2 * (image.height * m) + image.width ∧
          2 * (image.height * m) ≤
              2 * image.width * (compress_image image m).height + image.width) ∧
        (image.width < image.height →
          (compress_image image m).height = m ∧
          (compress_image image m).width = roundNat (image.width * m) image.height ∧
          2 * image.height * (compress_image image m).width ≤
              2 * (image.width * m) + image.height ∧
          2 * (image.width * m) ≤
              2 * image.height * (compress_image image m).width + image.height))) := by
  constructor
  · intro hle
    unfold compress_image
    rw [if_neg (by omega)]
  · intro hgt
    by_cases hwh : image.height ≤ image.width
    · have hmax : max image.width image.height = image.width := max_eq_left hwh
      rw [hmax] at hgt
      have hw : 0 < image.width := lt_of_le_of_lt (Nat.zero_le m) hgt
      have hcond : max image.width image.height > m := by rw [hmax]; exact hgt
      have hcw : (compress_image image m).width = m := by
        simp only [compress_image, thumbnailImage, thumbnailDims, gt_iff_lt]
        rw [if_pos hcond, if_pos hwh]
      have hch : (compress_image image m).height =
          roundNat (image.height * m) image.width := by
        simp only [compress_image, thumbnailImage, thumbnailDims, gt_iff_lt]
        rw [if_pos hcond, if_pos hwh]
      have hq_le_m : roundNat (image.height * m) image.width ≤ m :=
        roundNat_le_of_le _ _ _ hw (Nat.mul_le_mul_right m hwh)
      have hq_le_h : roundNat (image.height * m) image.width ≤ image.height :=
        roundNat_le_of_le _ _ _ hw
          ((Nat.mul_le_mul_left image.height (le_of_lt hgt)).trans
            (le_of_eq (Nat.mul_comm _ _)))
      have hb := roundNat_bounds (image.height * m) image.width hw
      rw [hcw, hch]
      exact ⟨max_eq_left hq_le_m, le_of_lt hgt, hq_le_h,
        fun _ => ⟨rfl, rfl, hb.1, hb.2⟩,
        fun hlt => absurd hlt (Nat.not_lt.2 hwh)⟩
    · have hhw : image.width < image.height := Nat.lt_of_not_le hwh
      have hmax : max image.width image.height = image.height :=
        max_eq_right (le_of_lt hhw)
      rw [hmax] at hgt
      have hh : 0 < image.height := lt_of_le_of_lt (Nat.zero_le m) hgt
      have hcond : max image.width image.height > m := by rw [hmax]; exact hgt
      have hcw : (compress_image image m).width =
          roundNat (image.width * m) image.height := by
        simp only [compress_image, thumbnailImage, thumbnailDims, gt_iff_lt]
        rw [if_pos hcond, if_neg hwh]
      have hch : (compress_image image m).height = m := by
        simp only [compress_image, thumbnailImage, thumbnailDims, gt_iff_lt]
        rw [if_pos hcond, if_neg hwh]
      have hq_le_m : roundNat (image.width * m) image.height ≤ m :=
        roundNat_le_of_le _ _ _ hh (Nat.mul_le_mul_right m (le_of_lt hhw))
      have hq_le_w : roundNat (image.width * m) image.height ≤ image.width :=
        roundNat_le_of_le _ _ _ hh
          ((Nat.mul_le_mul_left image.width (le_of_lt hgt)).trans
            (le_of_eq (Nat.mul_comm _ _)))
      have hb := roundNat_bounds (image.width * m) image.height hh
      rw [hcw, hch]
      exact ⟨max_eq_right hq_le_m, hq_le_w, le_of_lt hgt,
        fun hle => absurd hle hwh,
        fun _ => ⟨rfl, rfl, hb.1, hb.2⟩⟩

/-! ### Theorems about reconciliation -/

/-- Shared helper: the dimensions and modes produced by `reconcile`. -/
theorem reconcile_dims_modes (processed_foreground background_img : Image) :
    (reconcile processed_foreground background_img).1.width =
        processed_foreground.width ∧
      (reconcile processed_foreground background_img).1.height =
        processed_foreground.height ∧
      (reconcile processed_foreground background_img).2.width =
        processed_foreground.width ∧
      (reconcile processed_foreground background_img).2.height =
        processed_foreground.height ∧
      (reconcile processed_foreground background_img).1.mode = Mode.RGBA ∧
      (reconcile processed_foreground background_img).2.mode = Mode.RGBA := by
  unfold reconcile convertRGBA resize
  by_cases hsz : (processed_foreground.width, processed_foreground.height) =
      (background_img.width, background_img.height)
  · have h1 : processed_foreground.width = background_img.width :=
      congrArg Prod.fst hsz
    have h2 : processed_foreground.height = background_img.height :=
      congrArg Prod.snd hsz
    rw [if_neg (not_not_intro hsz)]
    exact ⟨rfl, rfl, h1.symm, h2.symm, rfl, rfl⟩
  · rw [if_pos hsz]
    exact ⟨rfl, rfl, rfl, rfl, rfl, rfl⟩

/-- C3: `reconcile` returns two images sharing the foreground's width and
height and both in RGBA mode; the foreground's dimensions are not altered
and the output background's dimensions equal the foreground's. -/
theorem reconcile_spec (processed_foreground background_img : Image) :
    (reconcile processed_foreground background_img).1.width =
        processed_foreground.width ∧
      (reconcile processed_foreground background_img).1.height =
        processed_foreground.height ∧
      (reconcile processed_foreground background_img).2.width =
        processed_foreground.width ∧
      (reconcile processed_foreground background_img).2.height =
        processed_foreground.height ∧
      (reconcile processed_foreground background_img).1.mode = Mode.RGBA ∧
      (reconcile processed_foreground background_img).2.mode = Mode.RGBA :=
  reconcile_dims_modes processed_foreground background_img

/-- C9: immediately after the reconcile step the compositor's precondition
(identical dimensions, both RGBA) always holds, so the fail-fast branch of
the checked compositor is unreachable in any pipeline execution. -/
theorem composite_precondition_holds (processed_foreground background_img : Image) :
    alpha_composite_checked (reconcile processed_foreground background_img).2
        (reconcile processed_foreground background_img).1 =
      Except.ok (alpha_composite
        (reconcile processed_foreground background_img).2
        (reconcile processed_foreground background_img).1) := by
  obtain ⟨h1, h2, h3, h4, h5, h6⟩ :=
    reconcile_dims_modes processed_foreground background_img
  unfold alpha_composite_checked
  rw [if_pos ⟨h3.trans h1.symm, h4.trans h2.symm, h6, h5⟩]

/-! ### Theorems about the compositor -/

/-- The clamp is the identity on values already in range. -/
theorem clamp255_eq_self {x : ℚ} (h0 : 0 ≤ x) (h255 : x ≤ 255) :
    clamp255 x = x := by
  unfold clamp255
  rw [min_eq_right h255, max_eq_right h0]

/-- The source-over channel formula stays within `[0, 255]` for in-range
channels and normalized alphas. -/
theorem over_channel_bounds {c cb af ab : ℚ} (hc0 : 0 ≤ c) (hc : c ≤ 255)
    (hcb0 : 0 ≤ cb) (hcb : cb ≤ 255) (haf0 : 0 ≤ af) (haf : af ≤ 1)
    (hab0 : 0 ≤ ab) (hab : ab ≤ 1) :
    0 ≤ c * af + cb * ab * (1 - af) ∧ c * af + cb * ab * (1 - af) ≤ 255 := by
  constructor
  · have h1 : 0 ≤ c * af := mul_nonneg hc0 haf0
    have h2 : 0 ≤ cb * ab * (1 - af) :=
      mul_nonneg (mul_nonneg hcb0 hab0) (by linarith)
    linarith
  · nlinarith [mul_nonneg hcb0 hab0, mul_nonneg haf0 (by linarith : (0:ℚ) ≤ 255 - c),
      mul_nonneg (by linarith : (0:ℚ) ≤ 1 - af)
        (by nlinarith : (0:ℚ) ≤ 255 - cb * ab)]

/-- The source-over alpha formula stays within `[0, 255]` for normalized
alphas. -/
theorem over_alpha_bounds {af ab : ℚ} (haf0 : 0 ≤ af) (haf : af ≤ 1)
    (hab0 : 0 ≤ ab) (hab : ab ≤ 1) :
    0 ≤ 255 * (af + ab * (1 - af)) ∧ 255 * (af + ab * (1 - af)) ≤ 255 := by
  constructor
  · nlinarith [mul_nonneg hab0 (by linarith : (0:ℚ) ≤ 1 - af)]
  · nlinarith [mul_nonneg (by linarith : (0:ℚ) ≤ 1 - ab)
      (by linarith : (0:ℚ) ≤ 1 - af)]

/-- C1: on same-sized RGBA inputs with in-range channels, every composite
pixel is exactly the source-over formula — `outRGB = fgRGB·fgA +
bgRGB·bgA·(1-fgA)` and `outA = fgA + bgA·(1-fgA)` with each alpha
normalized to `[0,1]` — and every output channel lies in the valid
integer range, the output clamp being the identity there. -/
theorem alpha_composite_formula (background foreground : Image) (x y : Nat)
    (hw : background.width = foreground.width)
    (hh : background.height = foreground.height)
    (hbm : background.mode = Mode.RGBA) (hfm : foreground.mode = Mode.RGBA)
    (hbr : pixelInRange (background.px x y))
    (hfr : pixelInRange (foreground.px x y)) :
    (alpha_composite background foreground).px x y =
      { r := (foreground.px x y).r * ((foreground.px x y).a / 255) +
          (background.px x y).r * ((background.px x y).a / 255) *
            (1 - (foreground.px x y).a / 255),
        g := (foreground.px x y).g * ((foreground.px x y).a / 255) +
          (background.px x y).g * ((background.px x y).a / 255) *
            (1 - (foreground.px x y).a / 255),
        b := (foreground.px x y).b * ((foreground.px x y).a / 255) +
          (background.px x y).b * ((background.px x y).a / 255) *
            (1 - (foreground.px x y).a / 255),
        a := 255 * ((foreground.px x y).a / 255 +
          ((background.px x y).a / 255) * (1 - (foreground.px x y).a / 255)) } ∧
      pixelInRange ((alpha_composite background foreground).px x y) := by
  obtain ⟨hbr0, hbr1, hbg0, hbg1, hbb0, hbb1, hba0, hba1⟩ := hbr
  obtain ⟨hfr0, hfr1, hfg0, hfg1, hfb0, hfb1, hfa0, hfa1⟩ := hfr
  have haf0 : 0 ≤ (foreground.px x y).a / 255 := by positivity
  have haf1 : (foreground.px x y).a / 255 ≤ 1 := by
    rw [div_le_one (by norm_num : (0:ℚ) < 255)]
    exact hfa1
  have hab0 : 0 ≤ (background.px x y).a / 255 := by positivity
  have hab1 : (background.px x y).a / 255 ≤ 1 := by
    rw [div_le_one (by norm_num : (0:ℚ) < 255)]
    exact hba1
  have hr := over_channel_bounds hfr0 hfr1 hbr0 hbr1 haf0 haf1 hab0 hab1
  have hg := over_channel_bounds hfg0 hfg1 hbg0 hbg1 haf0 haf1 hab0 hab1
  have hb := over_channel_bounds hfb0 hfb1 hbb0 hbb1 haf0 haf1 hab0 hab1
  have ha := over_alpha_bounds haf0 haf1 hab0 hab1
  have hpx : (alpha_composite background foreground).px x y =
      overPixel (background.px x y) (foreground.px x y) := rfl
  rw [hpx]
  simp only [overPixel]
  rw [clamp255_eq_self hr.1 hr.2, clamp255_eq_self hg.1 hg.2,
    clamp255_eq_self hb.1 hb.2, clamp255_eq_self ha.1 ha.2]
  refine ⟨rfl, hr.1, hr.2, hg.1, hg.2, hb.1, hb.2, ha.1, ha.2⟩

/-- Witness for C1 at two 1×1 constant images and pixel (0, 0). -/
theorem alpha_composite_formula_witness :
    constImage.width = constImage.width ∧
      constImage.height = constImage.height ∧
      constImage.mode = Mode.RGBA ∧
      pixelInRange (constImage.px 0 0) ∧
      ((alpha_composite constImage constImage).px 0 0 =
        { r := (constImage.px 0 0).r * ((constImage.px 0 0).a / 255) +
            (constImage.px 0 0).r * ((constImage.px 0 0).a / 255) *
              (1 - (constImage.px 0 0).a / 255),
          g := (constImage.px 0 0).g * ((constImage.px 0 0).a / 255) +
            (constImage.px 0 0).g * ((constImage.px 0 0).a / 255) *
              (1 - (constImage.px 0 0).a / 255),
          b := (constImage.px 0 0).b * ((constImage.px 0 0).a / 255) +
            (constImage.px 0 0).b * ((constImage.px 0 0).a / 255) *
              (1 - (constImage.px 0 0).a / 255),
          a := 255 * ((constImage.px 0 0).a / 255 +
            ((constImage.px 0 0).a / 255) * (1 - (constImage.px 0 0).a / 255)) } ∧
        pixelInRange ((alpha_composite constImage constImage).px 0 0)) :=
  ⟨rfl, rfl, rfl, by norm_num [constImage, constPixel, pixelInRange],
    alpha_composite_formula constImage constImage 0 0 rfl rfl rfl rfl
      (by norm_num [constImage, constPixel, pixelInRange])
      (by norm_num [constImage, constPixel, pixelInRange])⟩

/-- C5: compositing a fully-opaque foreground pixel over any background
pixel of a same-sized RGBA image leaves the foreground unchanged: the
output shares the foreground's dimensions and mode and reproduces its
pixel exactly, regardless of the background's content. -/
theorem alpha_composite_opaque (background foreground : Image) (x y : Nat)
    (hw : background.width = foreground.width)
    (hh : background.height = foreground.height)
    (hbm : background.mode = Mode.RGBA) (hfm : foreground.mode = Mode.RGBA)
    (hOpq : (foreground.px x y).a = 255)
    (hfr : pixelInRange (foreground.px x y)) :
    (alpha_composite background foreground).width = foreground.width ∧
      (alpha_composite background foreground).height = foreground.height ∧
      (alpha_composite background foreground).mode = foreground.mode ∧
      (alpha_composite background foreground).px x y = foreground.px x y := by
  obtain ⟨hfr0, hfr1, hfg0, hfg1, hfb0, hfb1, hfa0, hfa1⟩ := hfr
  refine ⟨hw, hh, by rw [hfm]; exact rfl, ?_⟩
  have hpx : (alpha_composite background foreground).px x y =
      overPixel (background.px x y) (foreground.px x y) := rfl
  rw [hpx]
  simp only [overPixel]
  rw [hOpq]
  have h255 : (255 : ℚ) / 255 = 1 := by norm_num
  rw [h255]
  have hsimp : ∀ c cb : ℚ, c * 1 + cb * ((background.px x y).a / 255) * (1 - 1) = c := by
    intro c cb
    ring
  rw [hsimp, hsimp, hsimp]
  have hasimp : (255 : ℚ) * (1 + (background.px x y).a / 255 * (1 - 1)) = 255 := by
    ring
  rw [hasimp]
  rw [clamp255_eq_self hfr0 hfr1, clamp255_eq_self hfg0 hfg1,
    clamp255_eq_self hfb0 hfb1,
    clamp255_eq_self (by norm_num) (by norm_num : (255:ℚ) ≤ 255)]
  rw [← hOpq]

/-- Witness for C5 at a 1×1 opaque foreground over a 1×1 background. -/
theorem alpha_composite_opaque_witness :
    constImage.width = constImage.width ∧
      constImage.height = constImage.height ∧
      constImage.mode = Mode.RGBA ∧
      (constImage.px 0 0).a = 255 ∧
      pixelInRange (constImage.px 0 0) ∧
      ((alpha_composite constImage constImage).width = constImage.width ∧
        (alpha_composite constImage constImage).height = constImage.height ∧
        (alpha_composite constImage constImage).mode = constImage.mode ∧
        (alpha_composite constImage constImage).px 0 0 = constImage.px 0 0) :=
  ⟨rfl, rfl, rfl, rfl, by norm_num [constImage, constPixel, pixelInRange],
    alpha_composite_opaque constImage constImage 0 0 rfl rfl rfl rfl rfl
      (by norm_num [constImage, constPixel, pixelInRange])⟩

/-! ### Theorems about the error wiring of the script -/

/-- C7 counterexample: when the collaborator returns bytes the decoder
cannot parse, the single diagnostic surfaced is the invalid-image one
(src/app.py line 126), not the unexpected-error one the claim requires. -/
theorem collaborator_unparseable_wrong_diag :
    (runPipeline demoDecode demoEncode demoRemoveBad [0] [1]).errors =
        [Msg.invalidImage] ∧
      Msg.invalidImage ≠ Msg.unexpected ∧
      (runPipeline demoDecode demoEncode demoRemoveBad [0] [1]).output = none ∧
      (runPipeline demoDecode demoEncode demoRemoveBad [0] [1]).removeCalls = 1 :=
  ⟨rfl, by decide, rfl, rfl⟩

/-- C7 (amended): if the collaborator call raises, the pipeline surfaces
exactly the one diagnostic its handlers pick for the raised exception class
(the unexpected-error diagnostic for a generic exception, the invalid-image
one for an image-decode exception), and if it returns bytes that cannot be
parsed as an image the single diagnostic is the invalid-image one; in every
case all remaining stages are aborted — no output is produced, no local
fallback cutout is attempted, and the collaborator is invoked exactly once,
never retried. -/
theorem collaborator_failure_aborts
    (decode : List Nat → Except PyError Image) (encodePng : Image → List Nat)
    (removeFn : List Nat → Except PyError (List Nat))
    (fgBytes bgBytes : List Nat) (fg bg : Image) (e : PyError)
    (outBytes : List Nat)
    (hfg : decode fgBytes = Except.ok fg)
    (hbg : decode bgBytes = Except.ok bg) :
    (removeFn (encodePng (compress_image fg MAX_IMAGE_DIMENSION)) =
        Except.error e →
      runPipeline decode encodePng removeFn fgBytes bgBytes =
        { errors := handlerMsgs e, output := none, removeCalls := 1 } ∧
        (handlerMsgs e).length = 1 ∧
        handlerMsgs PyError.other = [Msg.unexpected]) ∧
    (removeFn (encodePng (compress_image fg MAX_IMAGE_DIMENSION)) =
        Except.ok outBytes →
      decode outBytes = Except.error PyError.unidentifiedImage →
      runPipeline decode encodePng removeFn fgBytes bgBytes =
        { errors := [Msg.invalidImage], output := none, removeCalls := 1 }) := by
  constructor
  · intro hrem
    refine ⟨?_, by cases e <;> rfl, rfl⟩
    simp only [runPipeline, hfg, hbg, hrem]
  · intro hrem hdec
    simp only [runPipeline, hfg, hbg, hrem, hdec]
    rfl

/-- Witness for C7's amended theorem: a collaborator that raises a generic
exception aborts the demo pipeline with the single unexpected-error
diagnostic. -/
theorem collaborator_failure_aborts_witness :
    demoDecode [0] = Except.ok constImage ∧
      demoDecode [1] = Except.ok constImage ∧
      ((demoRemoveErr (demoEncode (compress_image constImage MAX_IMAGE_DIMENSION)) =
          Except.error PyError.other →
        runPipeline demoDecode demoEncode demoRemoveErr [0] [1] =
          { errors := handlerMsgs PyError.other, output := none, removeCalls := 1 } ∧
          (handlerMsgs PyError.other).length = 1 ∧
          handlerMsgs PyError.other = [Msg.unexpected]) ∧
      (demoRemoveErr (demoEncode (compress_image constImage MAX_IMAGE_DIMENSION)) =
          Except.ok [9] →
        demoDecode [9] = Except.error PyError.unidentifiedImage →
        runPipeline demoDecode demoEncode demoRemoveErr [0] [1] =
          { errors := [Msg.invalidImage], output := none, removeCalls := 1 })) :=
  ⟨rfl, rfl,
    collaborator_failure_aborts demoDecode demoEncode demoRemoveErr
      [0] [1] constImage constImage PyError.other [9] rfl rfl⟩

/-- C8: a byte buffer that the decoder cannot parse — `Image.open` raising
`UnidentifiedImageError`, as it does on the empty buffer — makes the
pipeline emit the single invalid-image diagnostic and abort: no output is
produced, no later stage runs (the collaborator is never invoked), and the
run terminates normally instead of crashing. -/
theorem decode_failure_aborts
    (decode : List Nat → Except PyError Image) (encodePng : Image → List Nat)
    (removeFn : List Nat → Except PyError (List Nat))
    (fgBytes bgBytes : List Nat) (fg : Image) :
    (decode fgBytes = Except.error PyError.unidentifiedImage →
      runPipeline decode encodePng removeFn fgBytes bgBytes =
        { errors := [Msg.invalidImage], output := none, removeCalls := 0 }) ∧
    (decode fgBytes = Except.ok fg →
      decode bgBytes = Except.error PyError.unidentifiedImage →
      runPipeline decode encodePng removeFn fgBytes bgBytes =
        { errors := [Msg.invalidImage], output := none, removeCalls := 0 }) := by
  constructor
  · intro h
    simp only [runPipeline, h]
    rfl
  · intro h1 h2
    simp only [runPipeline, h1, h2]
    rfl

/-- Witness for C8 on the empty (zero-byte) foreground buffer. -/
theorem decode_failure_aborts_witness :
    demoDecode [] = Except.error PyError.unidentifiedImage ∧
      runPipeline demoDecode demoEncode demoRemoveBad [] [1] =
        { errors := [Msg.invalidImage], output := none, removeCalls := 0 } :=
  ⟨rfl,
    (decode_failure_aborts demoDecode demoEncode demoRemoveBad
      [] [1] constImage).1 rfl⟩

end BgrImg
